import Mathlib

/-!
# Verification of the SisCrystal backend (src/src-tauri/src/lib.rs)

This file gives a shallow embedding of the core logic of the SisCrystal
desktop-shell backend and proves the specified properties about it.

Modelling conventions:
* External subprocess invocations (`run_command`) are modelled by passing
  their results as parameters: `Option String` for a command whose stdout
  is consumed on success, `Except String Unit` for a command used only for
  its success/failure (the `String` is the captured stderr text).
* The filesystem is modelled as a predicate `fs : String → Bool` meaning
  "this path exists and is a regular file".
* Machine integers (`u32`) become `Nat`; the only place a `u32` bound
  matters is the overflow check in `parse_first_percent_value`, modelled
  explicitly with `2 ^ 32`.  `f32` values that are merely carried around
  (telemetry fields) are abstracted to `Nat`; the one numeric `f32`
  computation (`parse_wpctl_volume`) is modelled over `ℚ` with explicit
  rounding, covering the plain decimal literals that `wpctl` prints.
* Real time (`std::time::Instant`) becomes a `Nat` timestamp passed to
  each call; `elapsed < duration` becomes `now - t < ttl`.
-/

namespace SisCrystal

/-!
The string operations of the Rust standard library are re-implemented here
over `String.data` (its character list), so that every definition is
kernel-computable on concrete inputs.
-/

/-- Rust `str::starts_with`. -/
def str_starts (s pre : String) : Bool :=
  pre.data.isPrefixOf s.data

/-- Rust `str::ends_with`. -/
def str_ends (s suf : String) : Bool :=
  suf.data.reverse.isPrefixOf s.data.reverse

/-- Rust `str::to_lowercase` (character-wise lowering). -/
def str_lower (s : String) : String :=
  ⟨s.data.map Char.toLower⟩

/-- Rust `str::to_uppercase` (character-wise raising). -/
def str_upper (s : String) : String :=
  ⟨s.data.map Char.toUpper⟩

/-- Rust `str::trim`: drop leading and trailing whitespace. -/
def str_trim (s : String) : String :=
  ⟨((s.data.dropWhile Char.isWhitespace).reverse.dropWhile Char.isWhitespace).reverse⟩

/-- Rust `str::is_empty`. -/
def str_is_empty (s : String) : Bool :=
  s.data.isEmpty

/-- Drop the first `n` characters. -/
def str_drop (s : String) (n : Nat) : String :=
  ⟨s.data.drop n⟩

/-- Worker for `contains_str`: does `pat` occur in `hay`? -/
def contains_go (pat : List Char) : List Char → Bool
  | [] => pat.isPrefixOf []
  | c :: rest => pat.isPrefixOf (c :: rest) || contains_go pat rest

/-- Rust `str::contains` for a string pattern. -/
def contains_str (s pat : String) : Bool :=
  contains_go pat.data s.data

/-- Worker for `split_on_char`. -/
def split_char_go (sep : Char) : List Char → List (List Char)
  | [] => [[]]
  | c :: rest =>
    if c = sep then [] :: split_char_go sep rest
    else
      match split_char_go sep rest with
      | h :: t => (c :: h) :: t
      | [] => [[c]]

/-- Rust `str::split(sep)` for a character separator: empty pieces are kept. -/
def split_on_char (sep : Char) (s : String) : List String :=
  (split_char_go sep s.data).map (fun l => ⟨l⟩)

/-- The first whitespace-separated token of a string, modelling Rust
`str::split_whitespace().next()`: skip leading whitespace, take until the
next whitespace character. -/
def first_token (s : String) : Option String :=
  let tok := (s.data.dropWhile Char.isWhitespace).takeWhile (fun c => !c.isWhitespace)
  if tok.isEmpty then none else some ⟨tok⟩

/-- Rust `str::lines`: split on `'\n'`, drop a final empty piece, and strip
one trailing `'\r'` from each line. -/
def rust_lines (s : String) : List String :=
  let pieces := split_on_char '\n' s
  let pieces := if pieces.getLast? = some "" then pieces.dropLast else pieces
  pieces.map (fun l => if str_ends l "\r" then ⟨l.data.dropLast⟩ else l)

/-- Scanner for `parse_first_percent_value` (src/src-tauri/src/lib.rs:163).
`run` is the value of the maximal ASCII-digit run immediately before the
current position (`none` when that run is empty).  On a `'%'` preceded by a
non-empty digit run the run's value is returned provided it fits in a
`u32` (Rust `u32::from_str` fails on overflow and the byte scan continues). -/
def pfp_go : List Char → Option Nat → Option Nat
  | [], _ => none
  | c :: rest, run =>
    if c = '%' then
      match run with
      | some v => if v < 2 ^ 32 then some v else pfp_go rest none
      | none => pfp_go rest none
    else if c.isDigit then
      pfp_go rest (some ((run.getD 0) * 10 + (c.toNat - 48)))
    else
      pfp_go rest none

/-- Embedding of `parse_first_percent_value` (src/src-tauri/src/lib.rs:163):
find the first `"NN%"` occurrence and extract `NN`. -/
def parse_first_percent_value (s : String) : Option Nat :=
  pfp_go s.data none

/-- Value of a digit string, most significant digit first. -/
def digits_val (s : String) : Nat :=
  s.data.foldl (fun acc c => acc * 10 + (c.toNat - 48)) 0

/-- Decimal-literal parser modelling Rust `f32::from_str` on the plain
decimal forms `wpctl` prints (optional sign, digits, optional fraction);
the value is kept exact in `ℚ`. -/
def parse_decimal (s : String) : Option ℚ :=
  let (sign, rest) : ℚ × String :=
    if str_starts s "-" then (-1, str_drop s 1)
    else if str_starts s "+" then (1, str_drop s 1)
    else (1, s)
  if str_is_empty rest then none
  else
    match split_on_char '.' rest with
    | [intPart] =>
      if intPart.data.all Char.isDigit then some (sign * digits_val intPart) else none
    | [intPart, fracPart] =>
      if str_is_empty intPart && str_is_empty fracPart then none
      else if intPart.data.all Char.isDigit && fracPart.data.all Char.isDigit then
        some (sign * (digits_val intPart + digits_val fracPart / (10 ^ fracPart.data.length)))
      else none
    | _ => none

/-- Rust `f32::round`: round half away from zero. -/
def rust_round (q : ℚ) : ℤ :=
  if 0 ≤ q then ⌊q + 1 / 2⌋ else -⌊-q + 1 / 2⌋

/-- Embedding of `parse_wpctl_volume` (src/src-tauri/src/lib.rs:184):
parse `"Volume: 0.52 [MUTED]"`-shaped output into a percentage clamped to
`[0, 150]` and a mute flag. -/
def parse_wpctl_volume (output : String) : Option (Nat × Bool) :=
  let muted := contains_str (str_upper output) "MUTED"
  match (split_on_char ':' output).get? 1 with
  | none => none
  | some after =>
    match first_token (str_trim after) with
    | none => none
    | some numStr =>
      match parse_decimal numStr with
      | none => none
      | some number =>
        let percent : ℤ := rust_round (number * 100)
        some ((max 0 (min percent 150)).toNat, muted)

/-! ## IconResolver: `resolve_icon_path` (src/src-tauri/src/lib.rs:198) -/

/-- Rust `PathBuf::join` on Linux: an absolute component replaces the base. -/
def pathJoin (base child : String) : String :=
  if str_starts child "/" then child else base ++ "/" ++ child

/-- Whether the icon name already carries a known image extension
(src/src-tauri/src/lib.rs:210). -/
def known_image_ext (icon : String) : Bool :=
  let lower := str_lower icon
  str_ends lower ".png" || str_ends lower ".svg" || str_ends lower ".xpm"

/-- The `filenames` vector of `resolve_icon_path`
(src/src-tauri/src/lib.rs:212): the literal name when it already carries a
known extension, else the name with `.svg`, `.png`, `.xpm` appended. -/
def icon_filenames (icon : String) : List String :=
  if known_image_ext icon then [icon]
  else [icon ++ ".svg", icon ++ ".png", icon ++ ".xpm"]

/-- The flat pixmap roots (src/src-tauri/src/lib.rs:222), with the
home-relative flatpak export root appended when a home directory exists. -/
def pixmap_roots (home : Option String) : List String :=
  ["/usr/share/pixmaps",
   "/usr/local/share/pixmaps",
   "/var/lib/flatpak/exports/share/pixmaps",
   "/run/host/usr/share/pixmaps",
   "/run/host/usr/local/share/pixmaps",
   "/run/host/var/lib/flatpak/exports/share/pixmaps"] ++
  (match home with
   | some h => [pathJoin h ".local/share/flatpak/exports/share/pixmaps"]
   | none => [])

/-- The icon-theme roots (src/src-tauri/src/lib.rs:246). -/
def icon_theme_roots (home : Option String) : List String :=
  (match home with
   | some h => [pathJoin h ".local/share/icons"]
   | none => []) ++
  ["/usr/share/icons",
   "/usr/local/share/icons",
   "/var/lib/flatpak/exports/share/icons",
   "/run/host/usr/share/icons",
   "/run/host/usr/local/share/icons",
   "/run/host/var/lib/flatpak/exports/share/icons"] ++
  (match home with
   | some h => [pathJoin h ".local/share/flatpak/exports/share/icons"]
   | none => [])

/-- Theme names searched, in order (src/src-tauri/src/lib.rs:260). -/
def icon_themes : List String := ["hicolor", "Adwaita"]

/-- Size buckets searched, scalable/largest first (src/src-tauri/src/lib.rs:261). -/
def icon_sizes : List String :=
  ["scalable", "512x512", "256x256", "192x192", "128x128", "96x96",
   "64x64", "48x48", "32x32", "24x24", "16x16"]

/-- Context subdirectories searched, in order (src/src-tauri/src/lib.rs:274). -/
def icon_contexts : List String :=
  ["apps", "applications", "places", "categories", "mimetypes", "status", "actions"]

/-- Embedding of `resolve_icon_path` (src/src-tauri/src/lib.rs:198) over a
filesystem `fs` ("exists and is a regular file") and an optional home
directory.  The nested `findSome?` calls mirror the source's nested `for`
loops with early `return`. -/
def resolve_icon_path (fs : String → Bool) (home : Option String) (icon0 : String) :
    Option String :=
  let icon := str_trim icon0
  if str_is_empty icon then none
  else if str_starts icon "/" && fs icon then some icon
  else
    match (pixmap_roots home).findSome? (fun root =>
        ["png", "svg", "xpm"].findSome? (fun ext =>
          if fs (pathJoin root (icon ++ "." ++ ext))
          then some (pathJoin root (icon ++ "." ++ ext)) else none)) with
    | some p => some p
    | none =>
      (icon_theme_roots home).findSome? (fun root =>
        icon_themes.findSome? (fun theme =>
          icon_sizes.findSome? (fun size =>
            icon_contexts.findSome? (fun ctx =>
              (icon_filenames icon).findSome? (fun filename =>
                if fs (pathJoin (pathJoin (pathJoin (pathJoin root theme) size) ctx) filename)
                then some (pathJoin (pathJoin (pathJoin (pathJoin root theme) size) ctx) filename)
                else none)))))

/-- The pixmap-directory candidate paths, in search order.  Note the source
always appends each of `png`, `svg`, `xpm` to the raw icon name here, even
when the name already carries an extension. -/
def pixmap_candidates (home : Option String) (icon : String) : List String :=
  (pixmap_roots home).flatMap (fun root =>
    ["png", "svg", "xpm"].map (fun ext => pathJoin root (icon ++ "." ++ ext)))

/-- The icon-theme candidate paths, in search order:
root, then theme, then size bucket, then context, then candidate filename. -/
def theme_candidates (home : Option String) (icon : String) : List String :=
  (icon_theme_roots home).flatMap (fun root =>
    icon_themes.flatMap (fun theme =>
      icon_sizes.flatMap (fun size =>
        icon_contexts.flatMap (fun ctx =>
          (icon_filenames icon).map (fun filename =>
            pathJoin (pathJoin (pathJoin (pathJoin root theme) size) ctx) filename)))))

/-- The complete candidate list of `resolve_icon_path`, in precedence
order: the input itself when absolute, then every pixmap candidate, then
the theme-hierarchy candidates. -/
def icon_candidates (home : Option String) (icon0 : String) : List String :=
  let icon := str_trim icon0
  if str_is_empty icon then []
  else
    (if str_starts icon "/" then [icon] else []) ++
    pixmap_candidates home icon ++ theme_candidates home icon

/-! ## DesktopCatalog: `parse_desktop_file` and `get_installed_apps`
(src/src-tauri/src/lib.rs:735, 772) -/

/-- The `DesktopApp` record (src/src-tauri/src/lib.rs:61). -/
structure DesktopApp where
  id : String
  name : String
  exec : String
  icon : Option String
  categories : List String
  description : Option String
deriving DecidableEq

/-- Embedding of `parse_desktop_file` (src/src-tauri/src/lib.rs:772).  The
already-parsed `[Desktop Entry]` section is given as an attribute lookup
`attr`, and the source file's stem as `file_stem` (`none` when the stem is
absent or not valid UTF-8, in which case the source falls back to the
name). -/
def parse_desktop_file (fs : String → Bool) (home : Option String)
    (attr : String → Option String) (file_stem : Option String) : Option DesktopApp :=
  let no_display := (attr "NoDisplay").getD "false"
  let hidden := (attr "Hidden").getD "false"
  if no_display = "true" || hidden = "true" then none
  else
    match attr "Name" with
    | none => none
    | some name =>
      let id := file_stem.getD name
      match attr "Exec" with
      | none => none
      | some e =>
        let exec := (first_token e).getD e
        let icon := (attr "Icon").bind (resolve_icon_path fs home)
        let categories :=
          ((attr "Categories").map
            (fun c => (split_on_char ';' c).filter (fun s => !str_is_empty s))).getD []
        let description := attr "Comment"
        some { id, name, exec, icon, categories, description }

/-- Lexicographic (code-point) order on character lists — the order Rust's
`Ord for String` implements (byte-lexicographic on UTF-8 coincides with
code-point lexicographic). -/
def charListLe : List Char → List Char → Bool
  | [], _ => true
  | _ :: _, [] => false
  | a :: as, b :: bs =>
    if a.toNat < b.toNat then true
    else if b.toNat < a.toNat then false
    else charListLe as bs

/-- The sort relation of `get_installed_apps` (src/src-tauri/src/lib.rs:767):
compare names case-insensitively
(`a.name.to_lowercase().cmp(&b.name.to_lowercase())`). -/
def app_le (a b : DesktopApp) : Prop :=
  charListLe (str_lower a.name).data (str_lower b.name).data = true

instance : DecidableRel app_le := fun a b =>
  inferInstanceAs
    (Decidable (charListLe (str_lower a.name).data (str_lower b.name).data = true))

/-- Worker for `dedup_by_name`: `last` is the most recently retained
entry; an entry whose name equals `last`'s is dropped, any other entry is
retained and becomes the new `last`. -/
def dedup_go (last : DesktopApp) : List DesktopApp → List DesktopApp
  | [] => []
  | b :: rest =>
    if last.name = b.name then dedup_go last rest
    else b :: dedup_go b rest

/-- Embedding of `Vec::dedup_by(|a, b| a.name == b.name)`
(src/src-tauri/src/lib.rs:768): remove all but the first of consecutive
entries with equal (case-sensitive) names, comparing each entry to the
last retained one. -/
def dedup_by_name : List DesktopApp → List DesktopApp
  | [] => []
  | a :: rest => a :: dedup_go a rest

/-- The sort-and-collapse tail of `get_installed_apps`
(src/src-tauri/src/lib.rs:767-769), as a function of the apps collected
from the scanned directories in scan order.  Rust `sort_by` is a stable
sort; `List.insertionSort` is its stable counterpart here. -/
def get_installed_apps (collected : List DesktopApp) : List DesktopApp :=
  dedup_by_name (List.insertionSort app_le collected)

/-! ## BackendChain: `set_volume`, `toggle_mute`, `media_control`,
`set_wallpaper` (src/src-tauri/src/lib.rs:639, 650, 659, 910) -/

instance {ε α : Type _} [DecidableEq ε] [DecidableEq α] : DecidableEq (Except ε α)
  | .ok a, .ok b =>
    if h : a = b then isTrue (by rw [h]) else isFalse (by simp [h])
  | .ok _, .error _ => isFalse (by simp)
  | .error _, .ok _ => isFalse (by simp)
  | .error e, .error f =>
    if h : e = f then isTrue (by rw [h]) else isFalse (by simp [h])

/-- Outcome of a two-backend chain call: the surfaced result, the value
actually sent, and whether the second backend was invoked. -/
structure ChainOut where
  result : Except String Unit
  sent : Nat
  second_invoked : Bool
deriving DecidableEq

/-- Embedding of `set_volume` (src/src-tauri/src/lib.rs:639).  `pactl` and
`wpctl` map the percentage actually sent to that backend's result. -/
def set_volume (pactl wpctl : Nat → Except String Unit) (volume : Nat) : ChainOut :=
  let v := min volume 150
  match pactl v with
  | .ok _ => ⟨.ok (), v, false⟩
  | .error _ =>
    match wpctl v with
    | .ok _ => ⟨.ok (), v, true⟩
    | .error e => ⟨.error e, v, true⟩

/-- Embedding of `toggle_mute` (src/src-tauri/src/lib.rs:650): result and
whether `wpctl` was invoked. -/
def toggle_mute (pactl wpctl : Except String Unit) : Except String Unit × Bool :=
  match pactl with
  | .ok _ => (.ok (), false)
  | .error _ =>
    match wpctl with
    | .ok _ => (.ok (), true)
    | .error e => (.error e, true)

/-- MPRIS playback status (`mpris::PlaybackStatus`). -/
inductive PlaybackStatus
  | Playing
  | Paused
  | Stopped
deriving DecidableEq

/-- An MPRIS player as `media_control` observes it: the result of its
`get_playback_status` query, and the result of invoking the requested
control operation on it. -/
structure Player where
  playback_status : Except String PlaybackStatus
  control_result : Except String Unit
deriving DecidableEq

/-- Whether a player reports a `Playing` status. -/
def player_is_playing (p : Player) : Bool :=
  match p.playback_status with
  | .ok .Playing => true
  | _ => false

/-- The player-selection scan of `media_control`
(src/src-tauri/src/lib.rs:672-683): the first player found in `Playing`
state wins; if none is playing, the first player enumerated is used. -/
def choose_player (players : List Player) : Option Player :=
  match players.find? player_is_playing with
  | some p => some p
  | none => players.head?

/-- The action-to-command translation of `media_control`
(src/src-tauri/src/lib.rs:660). -/
def media_action_cmd (action : String) : Option String :=
  match action with
  | "play" | "pause" => some "play-pause"
  | "next" => some "next"
  | "previous" => some "previous"
  | _ => none

/-- The `playerctl` fallback of `media_control`
(src/src-tauri/src/lib.rs:701): on failure the error names both backends
when MPRIS reached a player and failed, and explains the absence of an
MPRIS player otherwise. -/
def playerctl_fallback (playerctl : Except String Unit) (mpris_error : Option String) :
    Except String Unit × Bool :=
  match playerctl with
  | .ok _ => (.ok (), true)
  | .error e =>
    (.error (match mpris_error with
      | some me => "MPRIS failed (" ++ me ++ "); playerctl also failed (" ++ e ++ ")."
      | none =>
        "No MPRIS player found. Install 'playerctl' or run a MPRIS-compatible player. Details: "
          ++ e), true)

/-- Embedding of `media_control` (src/src-tauri/src/lib.rs:659).
`players` is the result of `PlayerFinder::new()` / `find_all()` (both
failure modes collapsed into one `Except`); `playerctl` the fallback
tool's result.  Returns the surfaced result and whether `playerctl` was
invoked. -/
def media_control (players : Except String (List Player))
    (playerctl : Except String Unit) (action : String) : Except String Unit × Bool :=
  match media_action_cmd action with
  | none => (.error "Unknown action", false)
  | some _cmd =>
    match players with
    | .ok ps =>
      match choose_player ps with
      | some player =>
        match player.control_result with
        | .ok _ => (.ok (), false)
        | .error me => playerctl_fallback playerctl (some me)
      | none => playerctl_fallback playerctl none
    | .error _ => playerctl_fallback playerctl none

/-- The URI construction of `set_wallpaper` (src/src-tauri/src/lib.rs:913):
pass `http://`, `https://` and `file://` inputs through; otherwise strip
all leading slashes and prepend `file:///`. -/
def wallpaper_uri (path : String) : String :=
  if str_starts path "http://" || str_starts path "https://" || str_starts path "file://"
  then path
  else "file:///" ++ String.mk (path.data.dropWhile (fun c => c = '/'))

/-- Embedding of `set_wallpaper` (src/src-tauri/src/lib.rs:910).
`gsettings_primary` and `gsettings_dark` map the applied URI to the result
of the `picture-uri` resp. `picture-uri-dark` gsettings call; `save` is
the result of persisting the settings file.  The dark-variant result is
discarded (`let _ = ...` in the source). -/
def set_wallpaper (gsettings_primary gsettings_dark : String → Except String Unit)
    (save : Except String Unit) (path : String) : Except String Unit :=
  let uri := wallpaper_uri path
  match gsettings_primary uri with
  | .error e => .error e
  | .ok _ =>
    let _dark := gsettings_dark uri
    match save with
    | .error e => .error e
    | .ok _ => .ok ()

/-! ## `get_audio_info` (src/src-tauri/src/lib.rs:613) -/

/-- The `AudioInfo` record (src/src-tauri/src/lib.rs:51), with the volume
percentage as a `Nat`. -/
structure AudioInfoM where
  volume : Nat
  is_muted : Bool
  current_track : Option String
  current_artist : Option String
  is_playing : Bool
deriving DecidableEq

/-- Embedding of `get_audio_info` (src/src-tauri/src/lib.rs:613).
`pactl_vol`, `pactl_mute`, `wpctl_vol` are the stdout of the respective
queries when they succeed; `meta` is the `(title, artist, playing)` triple
from `get_player_metadata`.  Total: every failure falls back to a default. -/
def get_audio_info (pactl_vol pactl_mute wpctl_vol : Option String)
    (meta : Option String × Option String × Bool) : AudioInfoM :=
  let vm : Nat × Bool :=
    match pactl_vol with
    | some out =>
      let v := (parse_first_percent_value out).getD 50
      let muted := (pactl_mute.map (fun s => contains_str s "yes")).getD false
      (v, muted)
    | none =>
      match wpctl_vol with
      | some out => (parse_wpctl_volume out).getD (50, false)
      | none => (50, false)
  { volume := vm.1
    is_muted := vm.2
    current_track := meta.1
    current_artist := meta.2.1
    is_playing := meta.2.2 }

/-! ## TelemetryCache: `get_system_info`, `get_network_info`
(src/src-tauri/src/lib.rs:442-510, 527-584) -/

/-- The `SystemInfo` record (src/src-tauri/src/lib.rs:14); numeric sensor
readings are abstracted to `Nat`. -/
structure SystemInfoM where
  cpu_usage : Nat
  memory_used : Nat
  memory_total : Nat
  memory_percent : Nat
  uptime : Nat
  hostname : String
  os_name : String
  kernel_version : String
deriving DecidableEq

/-- The `NetworkInfo` record (src/src-tauri/src/lib.rs:34). -/
structure NetworkInfoM where
  is_connected : Bool
  ssid : Option String
  signal_strength : Option Int
  ip_address : Option String
deriving DecidableEq

/-- `SYSTEM_CACHE_DURATION` (src/src-tauri/src/lib.rs:443), in milliseconds. -/
def SYSTEM_CACHE_DURATION : Nat := 1000

/-- `NETWORK_CACHE_DURATION` (src/src-tauri/src/lib.rs:530), in milliseconds. -/
def NETWORK_CACHE_DURATION : Nat := 3000

/-- The single-slot TTL cache pattern shared by `get_system_info` and
`get_network_info`: an empty slot is first initialised with a snapshot
computed now (the `OnceLock` closure), then the freshness check
`last_refresh.elapsed() < ttl` runs; a fresh slot is returned as is, an
expired one is recomputed and stored before being returned.  Returns
`((computed_at, snapshot), new_slot)`. -/
def cached_fetch {α : Type} (ttl : Nat) (cache : Option (Nat × α)) (now : Nat)
    (fresh : α) : (Nat × α) × (Nat × α) :=
  let c := match cache with
    | none => (now, fresh)
    | some ci => ci
  if now - c.1 < ttl then (c, c)
  else ((now, fresh), (now, fresh))

/-- Fuelled worker for `trim_lead_matches`; each strip removes at least one
character, so fuel `l.length` always reaches the fixpoint. -/
def trim_lead_go (pat : List Char) : Nat → List Char → List Char
  | 0, l => l
  | fuel + 1, l =>
    if decide (0 < pat.length) && pat.isPrefixOf l then
      trim_lead_go pat fuel (l.drop pat.length)
    else l

/-- Repeatedly strip a leading occurrence of `pat`, modelling Rust
`str::trim_start_matches` for a non-empty pattern. -/
def trim_lead_matches (pat s : String) : String :=
  ⟨trim_lead_go pat.data s.data.length s.data⟩

/-- The network snapshot computation of `get_network_info`
(src/src-tauri/src/lib.rs:533-550): the SSID is taken from the first
`nmcli` line starting with `yes:`, the IP from the first whitespace
token of `hostname -I`; connectivity means an SSID was found. -/
def compute_network_info (nmcli : Option String) (hostname : Option String) :
    NetworkInfoM :=
  let ssid := nmcli.bind (fun output =>
    ((rust_lines output).find? (fun line => str_starts line "yes:")).map
      (fun line => trim_lead_matches "yes:" line))
  let ip_address := hostname.bind (fun output => first_token output)
  { is_connected := ssid.isSome
    ssid
    signal_strength := none
    ip_address }

/-- Embedding of the cache behaviour of `get_system_info`
(src/src-tauri/src/lib.rs:446): the cache slot and current time are
explicit, the freshly probed snapshot is a parameter (its fields come from
the `sysinfo` library). -/
def get_system_info (cache : Option (Nat × SystemInfoM)) (now : Nat)
    (fresh : SystemInfoM) : (Nat × SystemInfoM) × (Nat × SystemInfoM) :=
  cached_fetch SYSTEM_CACHE_DURATION cache now fresh

/-- Embedding of the cache behaviour of `get_network_info`
(src/src-tauri/src/lib.rs:528), with the snapshot computed from the
`nmcli` and `hostname -I` outputs. -/
def get_network_info (cache : Option (Nat × NetworkInfoM)) (now : Nat)
    (nmcli : Option String) (hostname : Option String) :
    (Nat × NetworkInfoM) × (Nat × NetworkInfoM) :=
  cached_fetch NETWORK_CACHE_DURATION cache now (compute_network_info nmcli hostname)

/-! ## Concurrency model of the cache refresh

`get_system_info` / `get_network_info` refresh their slot under the cache
mutex with two assignments (`cache_guard.0 = now; cache_guard.1 = info`,
src/src-tauri/src/lib.rs:505-506 and 579-580), after building the full
replacement record outside the critical section; readers clone the whole
slot while holding the same mutex (src/src-tauri/src/lib.rs:474, 553).
The model below is an interleaving semantics of one refreshing writer and
arbitrarily many readers over that protocol. -/

/-- Who currently holds the cache slot's mutex. -/
inductive LockSt (ι : Type)
  | free
  | writer
  | reader (i : ι)
deriving DecidableEq

/-- Writer control points of the refresh path: before acquiring; holding
with nothing written; timestamp written; full record written; released. -/
inductive WPc
  | w0
  | w1
  | w2
  | w3
  | w4
deriving DecidableEq

/-- Reader control state: idle; holding the lock; holding after cloning the
slot; done, carrying the cloned record. -/
inductive RSt
  | idle
  | locked
  | got (v : Nat × SystemInfoM)
  | done (v : Nat × SystemInfoM)
deriving DecidableEq

/-- Global state of the cache-refresh system: lock owner, the shared slot
(refresh timestamp and snapshot), writer control point, reader states. -/
structure CacheSt (ι : Type) where
  lock : LockSt ι
  slot : Nat × SystemInfoM
  w : WPc
  r : ι → RSt

/-- Pointwise update of the reader-state map. -/
def updR {ι : Type} [DecidableEq ι] (f : ι → RSt) (i : ι) (v : RSt) : ι → RSt :=
  fun j => if j = i then v else f j

/-- One interleaved step of the refresh protocol with replacement record
`(tN, iN)`.  Slot access (reads and writes) requires holding the mutex,
exactly as the source only touches the slot through a `MutexGuard`. -/
inductive CacheStep {ι : Type} [DecidableEq ι] (tN : Nat) (iN : SystemInfoM) :
    CacheSt ι → CacheSt ι → Prop
  | w_acquire (s : CacheSt ι) : s.lock = .free → s.w = .w0 →
      CacheStep tN iN s { s with lock := .writer, w := .w1 }
  | w_write_ts (s : CacheSt ι) : s.lock = .writer → s.w = .w1 →
      CacheStep tN iN s { s with slot := (tN, s.slot.2), w := .w2 }
  | w_write_info (s : CacheSt ι) : s.lock = .writer → s.w = .w2 →
      CacheStep tN iN s { s with slot := (s.slot.1, iN), w := .w3 }
  | w_release (s : CacheSt ι) : s.lock = .writer → s.w = .w3 →
      CacheStep tN iN s { s with lock := .free, w := .w4 }
  | r_acquire (s : CacheSt ι) (i : ι) : s.lock = .free → s.r i = .idle →
      CacheStep tN iN s { s with lock := .reader i, r := updR s.r i .locked }
  | r_read (s : CacheSt ι) (i : ι) : s.lock = .reader i → s.r i = .locked →
      CacheStep tN iN s { s with r := updR s.r i (.got s.slot) }
  | r_release (s : CacheSt ι) (i : ι) (v : Nat × SystemInfoM) :
      s.lock = .reader i → s.r i = .got v →
      CacheStep tN iN s { s with lock := .free, r := updR s.r i (.done v) }

/-- Initial state: lock free, slot holding the pre-refresh record
`(t0, i0)`, writer about to refresh, all readers idle. -/
def cache_init {ι : Type} (t0 : Nat) (i0 : SystemInfoM) : CacheSt ι :=
  { lock := .free, slot := (t0, i0), w := .w0, r := fun _ => .idle }

/-- Reachability from the initial state under the refresh protocol. -/
def CacheReach {ι : Type} [DecidableEq ι] (t0 : Nat) (i0 : SystemInfoM)
    (tN : Nat) (iN : SystemInfoM) (s : CacheSt ι) : Prop :=
  Relation.ReflTransGen (CacheStep tN iN) (cache_init t0 i0) s

/-- Protocol invariant: the writer holds the lock at its interior control
points, the slot is mixed only at `w2` (where the writer holds the lock),
and every record a reader has cloned is the complete pre-refresh or the
complete post-refresh record. -/
def CacheInv {ι : Type} (t0 : Nat) (i0 : SystemInfoM) (tN : Nat) (iN : SystemInfoM)
    (s : CacheSt ι) : Prop :=
  ((s.w = .w1 ∨ s.w = .w2 ∨ s.w = .w3) → s.lock = .writer) ∧
  ((s.w = .w0 ∨ s.w = .w1) → s.slot = (t0, i0)) ∧
  (s.w = .w2 → s.slot = (tN, i0)) ∧
  ((s.w = .w3 ∨ s.w = .w4) → s.slot = (tN, iN)) ∧
  (∀ i v, s.r i = .got v ∨ s.r i = .done v → v = (t0, i0) ∨ v = (tN, iN))

/-! ## Concrete fixtures used by witnesses and counterexamples -/

/-- Fixture: an app named `AB` from a high-precedence directory. -/
def appAB1 : DesktopApp := ⟨"ab1", "AB", "x1", none, [], none⟩

/-- Fixture: an app named `ab` (same name up to case). -/
def appab : DesktopApp := ⟨"ab2", "ab", "x2", none, [], none⟩

/-- Fixture: a second app named `AB` from a lower-precedence directory. -/
def appAB2 : DesktopApp := ⟨"ab3", "AB", "x3", none, [], none⟩

/-- Fixture `[Desktop Entry]` section from the spec's end-to-end scenario. -/
def attr_fixture : String → Option String := fun k =>
  if k = "Name" then some "Editor"
  else if k = "Exec" then some "editor --flag %F"
  else if k = "Icon" then some "editor-icon"
  else if k = "Categories" then some "Development;Utility;"
  else none

/-- Fixture MPRIS player: reports `Playing` but its control call fails. -/
def mplayer : Player := ⟨.ok .Playing, .error "em"⟩

/-- Fixture pre-refresh snapshot. -/
def sysA : SystemInfoM := ⟨10, 100, 200, 50, 1, "hostA", "osA", "kA"⟩

/-- Fixture post-refresh snapshot. -/
def sysB : SystemInfoM := ⟨20, 150, 200, 75, 2, "hostB", "osB", "kB"⟩

/-- State after a reader acquires the lock in the initial state. -/
def c9_s1 : CacheSt Unit :=
  { lock := .reader (), slot := (0, sysA), w := .w0, r := updR (fun _ => .idle) () .locked }

/-- State after that reader clones the slot. -/
def c9_s2 : CacheSt Unit :=
  { c9_s1 with r := updR c9_s1.r () (.got c9_s1.slot) }

/-- State after that reader releases the lock. -/
def c9_s3 : CacheSt Unit :=
  { c9_s2 with lock := .free, r := updR c9_s2.r () (.done (0, sysA)) }

/-! ## Search-order lemmas for the icon resolver -/

theorem find?_append_cases (fs : String → Bool) (l₁ l₂ : List String) :
    (l₁ ++ l₂).find? fs =
      (match l₁.find? fs with
       | some p => some p
       | none => l₂.find? fs) := by
  induction l₁ with
  | nil => simp
  | cons a l₁ ih =>
    by_cases h : fs a = true
    · simp [List.find?, h]
    · simp only [Bool.not_eq_true] at h
      simp [List.find?, h, ih]

theorem findSome?_guard {α : Type} (fs : String → Bool) (g : α → String) (l : List α) :
    (l.findSome? fun a => if fs (g a) then some (g a) else none) = (l.map g).find? fs := by
  induction l with
  | nil => simp
  | cons a l ih =>
    rw [List.findSome?_cons, List.map_cons]
    by_cases h : fs (g a) = true
    · simp only [h, if_true, List.find?]
    · simp only [Bool.not_eq_true] at h
      simp only [h, Bool.false_eq_true, if_false, List.find?]
      exact ih

theorem findSome?_flat {α : Type} (fs : String → Bool) (k : α → List String) (l : List α) :
    (l.findSome? fun a => (k a).find? fs) = (l.flatMap k).find? fs := by
  induction l with
  | nil => simp
  | cons a l ih =>
    rw [List.flatMap_cons, find?_append_cases, List.findSome?_cons]
    cases h : (k a).find? fs with
    | none => simp only [h]; exact ih
    | some p => simp only [h]

/-- The nested pixmap loops of `resolve_icon_path` search exactly the
`pixmap_candidates` list, in order. -/
theorem pixmap_search_eq (fs : String → Bool) (home : Option String) (icon : String) :
    ((pixmap_roots home).findSome? (fun root =>
        ["png", "svg", "xpm"].findSome? (fun ext =>
          if fs (pathJoin root (icon ++ "." ++ ext))
          then some (pathJoin root (icon ++ "." ++ ext)) else none)))
      = (pixmap_candidates home icon).find? fs := by
  unfold pixmap_candidates
  have h0 : ∀ root : String,
      (["png", "svg", "xpm"].findSome? (fun ext =>
        if fs (pathJoin root (icon ++ "." ++ ext))
        then some (pathJoin root (icon ++ "." ++ ext)) else none))
        = (["png", "svg", "xpm"].map (fun ext => pathJoin root (icon ++ "." ++ ext))).find? fs :=
    fun root => findSome?_guard fs (fun ext => pathJoin root (icon ++ "." ++ ext)) _
  simp only [h0]
  exact findSome?_flat fs _ _

/-- The nested theme loops of `resolve_icon_path` search exactly the
`theme_candidates` list, in order. -/
theorem theme_search_eq (fs : String → Bool) (home : Option String) (icon : String) :
    ((icon_theme_roots home).findSome? (fun root =>
        icon_themes.findSome? (fun theme =>
          icon_sizes.findSome? (fun size =>
            icon_contexts.findSome? (fun ctx =>
              (icon_filenames icon).findSome? (fun filename =>
                if fs (pathJoin (pathJoin (pathJoin (pathJoin root theme) size) ctx) filename)
                then some (pathJoin (pathJoin (pathJoin (pathJoin root theme) size) ctx) filename)
                else none))))))
      = (theme_candidates home icon).find? fs := by
  unfold theme_candidates
  have h0 : ∀ base : String,
      ((icon_filenames icon).findSome? (fun filename =>
        if fs (pathJoin base filename)
        then some (pathJoin base filename) else none))
        = ((icon_filenames icon).map (fun filename => pathJoin base filename)).find? fs :=
    fun base => findSome?_guard fs (fun filename => pathJoin base filename) _
  simp only [h0, findSome?_flat]

/-- `resolve_icon_path` returns exactly the first candidate, in the fixed
precedence order `absolute input, pixmap directories, theme hierarchies`,
that exists as a regular file. -/
theorem resolve_icon_path_find_spec (fs : String → Bool) (home : Option String)
    (icon0 : String) :
    resolve_icon_path fs home icon0 = (icon_candidates home icon0).find? fs := by
  unfold resolve_icon_path icon_candidates
  by_cases hempty : str_is_empty (str_trim icon0) = true
  · rw [if_pos hempty, if_pos hempty]
    rfl
  · rw [if_neg hempty, if_neg hempty]
    rw [find?_append_cases, find?_append_cases]
    rw [← pixmap_search_eq fs home (str_trim icon0), ← theme_search_eq fs home (str_trim icon0)]
    by_cases habs : str_starts (str_trim icon0) "/" = true
    · by_cases hfs : fs (str_trim icon0) = true
      · rw [if_pos (show (str_starts (str_trim icon0) "/" && fs (str_trim icon0)) = true by
          simp [habs, hfs])]
        simp [habs, List.find?, hfs]
      · rw [if_neg (show ¬ (str_starts (str_trim icon0) "/" && fs (str_trim icon0)) = true by
          simp [hfs])]
        simp only [Bool.not_eq_true] at hfs
        simp only [habs, if_true, List.find?, hfs]
    · rw [if_neg (show ¬ (str_starts (str_trim icon0) "/" && fs (str_trim icon0)) = true by
        simp [habs])]
      simp only [Bool.not_eq_true] at habs
      simp only [habs, if_false, List.find?]

/-- `find?` returns the element after a prefix of failures. -/
theorem find?_first (fs : String → Bool) (l l1 l2 : List String) (p : String)
    (h1 : l = l1 ++ p :: l2) (h2 : fs p = true) (h3 : ∀ q ∈ l1, fs q = false) :
    l.find? fs = some p := by
  subst h1
  induction l1 with
  | nil => simp [List.find?, h2]
  | cons q l1 ih =>
    have hq : fs q = false := h3 q (by simp)
    simp only [List.cons_append, List.find?, hq]
    exact ih (fun r hr => h3 r (by simp [hr]))

theorem str_append_assoc (a b c : String) : (a ++ b) ++ c = a ++ (b ++ c) := by
  cases a with | mk da =>
  cases b with | mk db =>
  cases c with | mk dc =>
  show String.mk ((da ++ db) ++ dc) = String.mk (da ++ (db ++ dc))
  rw [List.append_assoc]

/-- C5: `resolve_icon_path` searches in a fixed deterministic precedence
order and returns the first existing regular file: it equals `find?` over
the `icon_candidates` list (absolute input first, then every pixmap
directory, then the theme hierarchies nested root / theme / size
(scalable and largest first) / context / filename), and whenever a
candidate exists and all earlier candidates do not, that candidate is
returned — independent of any filesystem enumeration order, which does
not appear in the model at all. -/
theorem c5_resolve_precedence (fs : String → Bool) (home : Option String)
    (icon0 : String) :
    resolve_icon_path fs home icon0 = (icon_candidates home icon0).find? fs ∧
    ∀ l1 p l2, icon_candidates home icon0 = l1 ++ p :: l2 → fs p = true →
      (∀ q ∈ l1, fs q = false) → resolve_icon_path fs home icon0 = some p := by
  refine ⟨resolve_icon_path_find_spec fs home icon0, fun l1 p l2 h1 h2 h3 => ?_⟩
  rw [resolve_icon_path_find_spec fs home icon0]
  exact find?_first fs _ l1 l2 p h1 h2 h3

/-- Witness for C5: with files at both `/usr/share/pixmaps/foo.svg` (a
pixmap candidate) and nowhere earlier, the resolver returns exactly that
higher-precedence hit. -/
theorem c5_resolve_precedence_witness :
    icon_candidates none "foo" =
      ["/usr/share/pixmaps/foo.png"] ++
        "/usr/share/pixmaps/foo.svg" :: ((icon_candidates none "foo").drop 2) ∧
    (fun p => p == "/usr/share/pixmaps/foo.svg") "/usr/share/pixmaps/foo.svg" = true ∧
    resolve_icon_path (fun p => p == "/usr/share/pixmaps/foo.svg") none "foo" =
      some "/usr/share/pixmaps/foo.svg" := by
  have htake : (icon_candidates none "foo").take 2 =
      ["/usr/share/pixmaps/foo.png", "/usr/share/pixmaps/foo.svg"] := rfl
  have h1 : icon_candidates none "foo" =
      ["/usr/share/pixmaps/foo.png"] ++
        "/usr/share/pixmaps/foo.svg" :: ((icon_candidates none "foo").drop 2) := by
    have hsplit : icon_candidates none "foo" =
        (icon_candidates none "foo").take 2 ++ (icon_candidates none "foo").drop 2 :=
      (List.take_append_drop 2 _).symm
    rw [htake] at hsplit
    exact hsplit
  refine ⟨h1, rfl, ?_⟩
  exact (c5_resolve_precedence (fun p => p == "/usr/share/pixmaps/foo.svg") none "foo").2
    ["/usr/share/pixmaps/foo.png"] "/usr/share/pixmaps/foo.svg"
    ((icon_candidates none "foo").drop 2) h1 (by decide) (by decide)

/-- Counterexample to C4 as stated: for the extension-carrying input
`"foo.png"`, the filesystem contains exactly the literal filename
`/usr/share/pixmaps/foo.png` in a flat pixmap directory, yet the resolver
finds nothing — the pixmap search does not use the literal filename as a
candidate (it appends `.png`/`.svg`/`.xpm` to the raw name). -/
theorem c4_counterexample :
    resolve_icon_path (fun p => p == "/usr/share/pixmaps/foo.png") none "foo.png" = none ∧
    (fun p => p == "/usr/share/pixmaps/foo.png") "/usr/share/pixmaps/foo.png" = true := by
  exact ⟨by decide, by decide⟩

/-- C4 (amended): for inputs with a known image extension the
theme-hierarchy search uses the literal filename as the only candidate,
while the flat pixmap directories are always probed for the raw input name
with each of `png`, `svg`, `xpm` appended (in that order), even when the
input already carries an extension; inputs without a known extension get
`.svg`, `.png`, `.xpm` appended in that fixed order for the theme search. -/
theorem c4_amended (home : Option String) (icon : String) :
    (known_image_ext icon = true →
      icon_filenames icon = [icon] ∧
      theme_candidates home icon =
        (icon_theme_roots home).flatMap (fun root =>
          icon_themes.flatMap (fun theme =>
            icon_sizes.flatMap (fun size =>
              icon_contexts.map (fun ctx =>
                pathJoin (pathJoin (pathJoin (pathJoin root theme) size) ctx) icon))))) ∧
    (known_image_ext icon = false →
      icon_filenames icon = [icon ++ ".svg", icon ++ ".png", icon ++ ".xpm"]) ∧
    pixmap_candidates home icon =
      (pixmap_roots home).flatMap (fun root =>
        [pathJoin root (icon ++ ".png"), pathJoin root (icon ++ ".svg"),
         pathJoin root (icon ++ ".xpm")]) := by
  have hmap : ∀ {α β : Type} (l : List α) (f : α → β),
      l.flatMap (fun x => [f x]) = l.map f := by
    intro α β l f
    induction l with
    | nil => rfl
    | cons a l ih => simp [List.flatMap_cons, ih]
  refine ⟨fun h => ⟨by simp [icon_filenames, h], ?_⟩,
    fun h => by simp [icon_filenames, h], ?_⟩
  · unfold theme_candidates
    simp [icon_filenames, h, hmap]
  · unfold pixmap_candidates
    have e1 : ("." ++ "png" : String) = ".png" := by decide
    have e2 : ("." ++ "svg" : String) = ".svg" := by decide
    have e3 : ("." ++ "xpm" : String) = ".xpm" := by decide
    have hp : (icon ++ "." ++ "png") = icon ++ ".png" := by
      rw [str_append_assoc, e1]
    have hs : (icon ++ "." ++ "svg") = icon ++ ".svg" := by
      rw [str_append_assoc, e2]
    have hx : (icon ++ "." ++ "xpm") = icon ++ ".xpm" := by
      rw [str_append_assoc, e3]
    simp [hp, hs, hx]

/-- Witness for C4 (amended) at the extension-carrying input `"a.png"`. -/
theorem c4_amended_witness :
    known_image_ext "a.png" = true ∧ icon_filenames "a.png" = ["a.png"] ∧
    known_image_ext "b" = false ∧
    icon_filenames "b" = ["b" ++ ".svg", "b" ++ ".png", "b" ++ ".xpm"] := by
  refine ⟨by decide, ((c4_amended none "a.png").1 (by decide)).1, by decide, ?_⟩
  exact (c4_amended none "b").2.1 (by decide)

/-! ## Order and dedup lemmas for the desktop catalog -/

theorem charListLe_cases (a b : Char) (as bs : List Char)
    (h : charListLe (a :: as) (b :: bs) = true) :
    a.toNat < b.toNat ∨ (a.toNat = b.toNat ∧ charListLe as bs = true) := by
  by_cases h1 : a.toNat < b.toNat
  · exact Or.inl h1
  · by_cases h2 : b.toNat < a.toNat
    · simp [charListLe, h1, h2] at h
    · refine Or.inr ⟨by omega, ?_⟩
      simpa [charListLe, h1, h2] using h

theorem charListLe_total : ∀ as bs : List Char,
    charListLe as bs = true ∨ charListLe bs as = true := by
  intro as
  induction as with
  | nil => intro bs; exact Or.inl rfl
  | cons a as ih =>
    intro bs
    cases bs with
    | nil => exact Or.inr rfl
    | cons b bs =>
      by_cases h1 : a.toNat < b.toNat
      · exact Or.inl (by simp [charListLe, h1])
      · by_cases h2 : b.toNat < a.toNat
        · exact Or.inr (by simp [charListLe, h1, h2])
        · rcases ih bs with h | h
          · exact Or.inl (by simp [charListLe, h1, h2, h])
          · exact Or.inr (by simp [charListLe, h1, h2, h])

theorem charListLe_trans : ∀ as bs cs : List Char,
    charListLe as bs = true → charListLe bs cs = true → charListLe as cs = true := by
  intro as
  induction as with
  | nil => intro bs cs _ _; rfl
  | cons a as ih =>
    intro bs cs hab hbc
    cases bs with
    | nil => simp [charListLe] at hab
    | cons b bs =>
      cases cs with
      | nil => simp [charListLe] at hbc
      | cons c cs =>
        rcases charListLe_cases a b as bs hab with h1 | ⟨e1, t1⟩ <;>
          rcases charListLe_cases b c bs cs hbc with h2 | ⟨e2, t2⟩
        · simp [charListLe, show a.toNat < c.toNat by omega]
        · simp [charListLe, show a.toNat < c.toNat by omega]
        · simp [charListLe, show a.toNat < c.toNat by omega]
        · simp only [charListLe, show ¬ a.toNat < c.toNat by omega, if_false,
            show ¬ c.toNat < a.toNat by omega]
          exact ih bs cs t1 t2

instance : IsTotal DesktopApp app_le :=
  ⟨fun _ _ => charListLe_total _ _⟩

instance : IsTrans DesktopApp app_le :=
  ⟨fun _ _ _ => charListLe_trans _ _ _⟩

theorem dedup_go_sublist : ∀ (rest : List DesktopApp) (last : DesktopApp),
    List.Sublist (dedup_go last rest) rest := by
  intro rest
  induction rest with
  | nil => intro last; simp [dedup_go]
  | cons b rest0 ih =>
    intro last
    by_cases h : last.name = b.name
    · rw [dedup_go, if_pos h]
      exact (ih last).trans (List.sublist_cons_self b rest0)
    · rw [dedup_go, if_neg h]
      exact (ih b).cons₂ b

theorem dedup_by_name_sublist (l : List DesktopApp) :
    List.Sublist (dedup_by_name l) l := by
  cases l with
  | nil => simp [dedup_by_name]
  | cons a rest =>
    rw [dedup_by_name]
    exact (dedup_go_sublist rest a).cons₂ a

theorem dedup_go_chain' : ∀ (rest : List DesktopApp) (last : DesktopApp),
    List.Chain' (fun x y => x.name ≠ y.name) (last :: dedup_go last rest) := by
  intro rest
  induction rest with
  | nil => intro last; simp [dedup_go]
  | cons b rest0 ih =>
    intro last
    by_cases h : last.name = b.name
    · rw [dedup_go, if_pos h]
      exact ih last
    · rw [dedup_go, if_neg h]
      exact List.chain'_cons.mpr ⟨h, ih b⟩

theorem dedup_by_name_chain' (l : List DesktopApp) :
    List.Chain' (fun x y => x.name ≠ y.name) (dedup_by_name l) := by
  cases l with
  | nil => simp [dedup_by_name]
  | cons a rest =>
    rw [dedup_by_name]
    exact dedup_go_chain' rest a

theorem dedup_go_cover : ∀ (rest : List DesktopApp) (last : DesktopApp),
    ∀ x ∈ rest, ∃ y ∈ last :: dedup_go last rest, y.name = x.name := by
  intro rest
  induction rest with
  | nil => intro last x hx; simp at hx
  | cons b rest0 ih =>
    intro last x hx
    by_cases h : last.name = b.name
    · rw [dedup_go, if_pos h]
      rcases List.mem_cons.mp hx with hx | hx
      · exact ⟨last, by simp, by rw [h, hx]⟩
      · exact ih last x hx
    · rw [dedup_go, if_neg h]
      rcases List.mem_cons.mp hx with hx | hx
      · exact ⟨b, by simp, by rw [hx]⟩
      · obtain ⟨y, hy, hyn⟩ := ih b x hx
        rcases List.mem_cons.mp hy with hy | hy
        · exact ⟨y, by simp [hy], hyn⟩
        · exact ⟨y, by simp [hy], hyn⟩

theorem dedup_by_name_cover (l : List DesktopApp) :
    ∀ x ∈ l, ∃ y ∈ dedup_by_name l, y.name = x.name := by
  cases l with
  | nil => intro x hx; simp at hx
  | cons a rest =>
    intro x hx
    rw [dedup_by_name]
    rcases List.mem_cons.mp hx with hx | hx
    · exact ⟨a, by simp, by rw [hx]⟩
    · exact dedup_go_cover rest a x hx

/-- Counterexample to C3 as stated: three collected entries named `AB`,
`ab`, `AB` sort into adjacent positions under the case-insensitive order,
but the collapse compares names case-sensitively, so the output keeps all
three — its first and third entries share the name `AB`. -/
theorem c3_counterexample :
    (get_installed_apps [appAB1, appab, appAB2]).map (fun a => a.name) =
      ["AB", "ab", "AB"] ∧
    ((get_installed_apps [appAB1, appab, appAB2]).get? 0).map (fun a => a.name) =
      some "AB" ∧
    ((get_installed_apps [appAB1, appab, appAB2]).get? 2).map (fun a => a.name) =
      some "AB" := by
  exact ⟨by decide, by decide, by decide⟩

/-- C3 (amended): the output of `get_installed_apps` is sorted
case-insensitively by name; consecutive equal-name (case-sensitive)
entries are collapsed keeping the first occurrence, so no two
*consecutive* output entries share a name, the output is a sublist of the
stable case-insensitive sort (earlier-scanned entries keep precedence),
and every collected name is represented; but names differing only in case
can interleave, so two non-consecutive output entries may share a name. -/
theorem c3_amended (l : List DesktopApp) :
    List.Sorted app_le (get_installed_apps l) ∧
    List.Chain' (fun x y => x.name ≠ y.name) (get_installed_apps l) ∧
    List.Sublist (get_installed_apps l) (List.insertionSort app_le l) ∧
    (get_installed_apps l).head? = (List.insertionSort app_le l).head? ∧
    ∀ x ∈ List.insertionSort app_le l, ∃ y ∈ get_installed_apps l, y.name = x.name := by
  refine ⟨?_, ?_, ?_, ?_, ?_⟩
  · exact (List.sorted_insertionSort app_le l).sublist (dedup_by_name_sublist _)
  · exact dedup_by_name_chain' _
  · exact dedup_by_name_sublist _
  · unfold get_installed_apps
    cases List.insertionSort app_le l with
    | nil => rfl
    | cons a rest =>
      rw [dedup_by_name]
      rfl
  · exact dedup_by_name_cover _

/-- Witness for C3 (amended) on a one-entry catalog. -/
theorem c3_amended_witness :
    appAB1 ∈ List.insertionSort app_le [appAB1] ∧
    ∃ y ∈ get_installed_apps [appAB1], y.name = appAB1.name := by
  exact ⟨by decide, (c3_amended [appAB1]).2.2.2.2 appAB1 (by decide)⟩

/-! ## Backend-chain claims -/

/-- C6: `set_volume` sends `min(v, 150)` to whichever backend it invokes:
200 is clamped to 150, anything at or below 150 (including 0) passes
through unchanged. -/
theorem c6_volume_clamp (pactl wpctl : Nat → Except String Unit) (v : Nat) :
    (set_volume pactl wpctl v).sent = min v 150 ∧
    (v ≤ 150 → (set_volume pactl wpctl v).sent = v) ∧
    (set_volume pactl wpctl 200).sent = 150 ∧
    (set_volume pactl wpctl 0).sent = 0 := by
  have hsent : ∀ w, (set_volume pactl wpctl w).sent = min w 150 := by
    intro w
    simp only [set_volume]
    cases h1 : pactl (min w 150) with
    | ok _ => rfl
    | error _ =>
      cases h2 : wpctl (min w 150) with
      | ok _ => rfl
      | error _ => rfl
  refine ⟨hsent v, fun hv => ?_, ?_, ?_⟩
  · rw [hsent v]; omega
  · rw [hsent 200]; omega
  · rw [hsent 0]; omega

/-- Witness for C6 at volume 100 with both backends available. -/
theorem c6_volume_clamp_witness :
    (100 : Nat) ≤ 150 ∧
    (set_volume (fun _ => .ok ()) (fun _ => .ok ()) 100).sent = 100 :=
  ⟨by omega, (c6_volume_clamp (fun _ => .ok ()) (fun _ => .ok ()) 100).2.1 (by omega)⟩

/-- Counterexample to C1 as stated: when both audio backends fail,
`set_volume` surfaces only `wpctl`'s failure text — the error neither
names `pactl` nor carries its failure reason. -/
theorem c1_counterexample :
    (set_volume (fun _ => .error "pactl failure text")
      (fun _ => .error "wpctl: command not found") 40).result =
      .error "wpctl: command not found" ∧
    contains_str "wpctl: command not found" "pactl" = false ∧
    contains_str "wpctl: command not found" "pactl failure text" = false := by
  exact ⟨by decide, by decide, by decide⟩

/-- C1 (amended): in every two-backend chain, if backend A succeeds,
backend B is never invoked and the result is success; if A fails and B
succeeds, the overall result is B's success.  When both fail, the audio
chains (`set_volume`, `toggle_mute`) return backend B's failure reason
alone, while `media_control` returns an error naming both backends and
their failure reasons (both when a player was reached and its control
call failed, and when no MPRIS player was found at all). -/
theorem c1_amended :
    (∀ (pactl wpctl : Nat → Except String Unit) (v : Nat),
      (pactl (min v 150) = .ok () →
        set_volume pactl wpctl v = ⟨.ok (), min v 150, false⟩) ∧
      (∀ e, pactl (min v 150) = .error e → wpctl (min v 150) = .ok () →
        set_volume pactl wpctl v = ⟨.ok (), min v 150, true⟩) ∧
      (∀ e1 e2, pactl (min v 150) = .error e1 → wpctl (min v 150) = .error e2 →
        set_volume pactl wpctl v = ⟨.error e2, min v 150, true⟩)) ∧
    (∀ pa wa : Except String Unit,
      (pa = .ok () → toggle_mute pa wa = (.ok (), false)) ∧
      (∀ e, pa = .error e → wa = .ok () → toggle_mute pa wa = (.ok (), true)) ∧
      (∀ e1 e2, pa = .error e1 → wa = .error e2 →
        toggle_mute pa wa = (.error e2, true))) ∧
    (∀ (players : List Player) (pl : Player) (playerctl : Except String Unit)
        (action cmd : String),
      media_action_cmd action = some cmd →
      choose_player players = some pl →
      (pl.control_result = .ok () →
        media_control (.ok players) playerctl action = (.ok (), false)) ∧
      (∀ me, pl.control_result = .error me → playerctl = .ok () →
        media_control (.ok players) playerctl action = (.ok (), true)) ∧
      (∀ me e, pl.control_result = .error me → playerctl = .error e →
        media_control (.ok players) playerctl action =
          (.error ("MPRIS failed (" ++ me ++ "); playerctl also failed (" ++ e ++ ")."),
            true))) ∧
    (∀ (players : Except String (List Player)) (playerctl : Except String Unit)
        (action cmd : String),
      media_action_cmd action = some cmd →
      (players = .error "" ∨ players = .ok [] ∨
        (∃ ps, players = .ok ps ∧ choose_player ps = none)) →
      ∀ e2, playerctl = .error e2 →
        media_control players playerctl action =
          (.error
            ("No MPRIS player found. Install 'playerctl' or run a MPRIS-compatible player. Details: "
              ++ e2), true)) := by
  refine ⟨?_, ?_, ?_, ?_⟩
  · intro pactl wpctl v
    refine ⟨fun h1 => ?_, fun e h1 h2 => ?_, fun e1 e2 h1 h2 => ?_⟩
    · simp only [set_volume, h1]
    · simp only [set_volume, h1, h2]
    · simp only [set_volume, h1, h2]
  · intro pa wa
    refine ⟨fun h1 => ?_, fun e h1 h2 => ?_, fun e1 e2 h1 h2 => ?_⟩
    · simp only [toggle_mute, h1]
    · simp only [toggle_mute, h1, h2]
    · simp only [toggle_mute, h1, h2]
  · intro players pl playerctl action cmd hcmd hchoose
    refine ⟨fun h1 => ?_, fun me h1 h2 => ?_, fun me e h1 h2 => ?_⟩
    · simp only [media_control, hcmd, hchoose, h1]
    · simp only [media_control, hcmd, hchoose, h1, playerctl_fallback, h2]
    · simp only [media_control, hcmd, hchoose, h1, playerctl_fallback, h2]
  · intro players playerctl action cmd hcmd hps e2 h2
    rcases hps with h | h | ⟨ps, hps, hnone⟩
    · subst h
      simp only [media_control, hcmd, playerctl_fallback, h2]
    · subst h
      simp only [media_control, hcmd, choose_player, List.find?, List.head?,
        playerctl_fallback, h2]
    · subst hps
      simp only [media_control, hcmd, hnone, playerctl_fallback, h2]

/-- Witness for C1 (amended), exercising the audio both-fail case, the
fall-through success case, and both `media_control` both-fail error
formats at concrete inputs. -/
theorem c1_amended_witness :
    set_volume (fun _ => .error "ep") (fun _ => .error "ew") 10 =
      ⟨.error "ew", min 10 150, true⟩ ∧
    toggle_mute (.error "ep") (.ok ()) = (.ok (), true) ∧
    media_control (.ok [mplayer]) (.error "epc") "play" =
      (.error ("MPRIS failed (" ++ "em" ++ "); playerctl also failed (" ++ "epc" ++ ")."),
        true) ∧
    media_control (.ok []) (.error "epc") "next" =
      (.error
        ("No MPRIS player found. Install 'playerctl' or run a MPRIS-compatible player. Details: "
          ++ "epc"), true) := by
  refine ⟨?_, ?_, ?_, ?_⟩
  · exact (c1_amended.1 (fun _ => .error "ep") (fun _ => .error "ew") 10).2.2
      "ep" "ew" rfl rfl
  · exact (c1_amended.2.1 (.error "ep") (.ok ())).2.1 "ep" rfl rfl
  · exact (c1_amended.2.2.1 [mplayer] mplayer (.error "epc") "play" "play-pause"
      rfl (by decide)).2.2 "em" "epc" rfl rfl
  · exact c1_amended.2.2.2 (.ok []) (.error "epc") "next" "next" rfl
      (Or.inr (Or.inl rfl)) "epc" rfl

/-! ## Wallpaper claims -/

/-- Counterexample to C7 as stated: the input `ftp://example.com/a.jpg`
carries a URI scheme, yet `set_wallpaper` does not pass it through
unchanged — only `http://`, `https://` and `file://` are recognised, so
the input is treated as a bare path and prefixed. -/
theorem c7_counterexample :
    wallpaper_uri "ftp://example.com/a.jpg" = "file:///ftp://example.com/a.jpg" ∧
    wallpaper_uri "ftp://example.com/a.jpg" ≠ "ftp://example.com/a.jpg" := by
  exact ⟨by decide, by decide⟩

/-- C7 (amended): `set_wallpaper` passes the input through unchanged
exactly when it starts with `http://`, `https://` or `file://`; any other
input (other URI schemes included) has its leading slashes stripped and
`file:///` prefixed.  Failure of the primary `picture-uri` application is
surfaced as a hard error; the secondary dark-variant key's outcome is
discarded and never affects the result, which on primary success depends
only on persisting the settings file. -/
theorem c7_amended :
    (∀ path : String,
      (str_starts path "http://" || str_starts path "https://" ||
        str_starts path "file://") = true →
      wallpaper_uri path = path) ∧
    (∀ path : String,
      (str_starts path "http://" || str_starts path "https://" ||
        str_starts path "file://") = false →
      wallpaper_uri path = "file:///" ++ String.mk (path.data.dropWhile (fun c => c = '/'))) ∧
    (∀ (p d : String → Except String Unit) (s : Except String Unit) (path e : String),
      p (wallpaper_uri path) = .error e → set_wallpaper p d s path = .error e) ∧
    (∀ (p d1 d2 : String → Except String Unit) (s : Except String Unit) (path : String),
      p (wallpaper_uri path) = .ok () →
      set_wallpaper p d1 s path = set_wallpaper p d2 s path) ∧
    (∀ (p d : String → Except String Unit) (path : String),
      p (wallpaper_uri path) = .ok () →
      set_wallpaper p d (.ok ()) path = .ok ()) := by
  refine ⟨fun path h => ?_, fun path h => ?_, fun p d s path e h => ?_,
    fun p d1 d2 s path h => ?_, fun p d path h => ?_⟩
  · simp only [wallpaper_uri, h, if_true]
  · simp only [wallpaper_uri, h, Bool.false_eq_true, if_false]
  · simp only [set_wallpaper, h]
  · simp only [set_wallpaper, h]
  · simp only [set_wallpaper, h]

/-- Witness for C7 (amended) on concrete inputs: an existing `file://` URI
passes through, a bare path gets prefixed, and a failing dark-variant call
does not change the result. -/
theorem c7_amended_witness :
    wallpaper_uri "file:///usr/share/backgrounds/a.jpg" =
      "file:///usr/share/backgrounds/a.jpg" ∧
    set_wallpaper (fun _ => .ok ()) (fun _ => .error "dark failed") (.ok ()) "/a.jpg" =
      set_wallpaper (fun _ => .ok ()) (fun _ => .ok ()) (.ok ()) "/a.jpg" ∧
    set_wallpaper (fun _ => .ok ()) (fun _ => .error "dark failed") (.ok ()) "/a.jpg" =
      .ok () := by
  refine ⟨?_, ?_, ?_⟩
  · exact c7_amended.1 "file:///usr/share/backgrounds/a.jpg" (by decide)
  · exact c7_amended.2.2.2.1 (fun _ => .ok ()) (fun _ => .error "dark failed")
      (fun _ => .ok ()) (.ok ()) "/a.jpg" rfl
  · exact c7_amended.2.2.2.2 (fun _ => .ok ()) (fun _ => .error "dark failed")
      "/a.jpg" rfl

/-! ## Desktop-entry parsing claim -/

/-- C8: `parse_desktop_file` yields no entry exactly when the section has
`NoDisplay` or `Hidden` equal to the literal `"true"`, or lacks `Name`, or
lacks `Exec`; every produced entry has `exec` equal to the first
whitespace-separated token of `Exec` (when one exists) and `categories`
equal to the `Categories` value split on `;` with empty segments
discarded. -/
theorem c8_parse_rules (fs : String → Bool) (home : Option String)
    (attr : String → Option String) (stem : Option String) :
    (parse_desktop_file fs home attr stem = none ↔
      (attr "NoDisplay").getD "false" = "true" ∨
      (attr "Hidden").getD "false" = "true" ∨
      attr "Name" = none ∨ attr "Exec" = none) ∧
    (∀ app, parse_desktop_file fs home attr stem = some app →
      (∀ e t, attr "Exec" = some e → first_token e = some t → app.exec = t) ∧
      (∀ c, attr "Categories" = some c →
        app.categories = (split_on_char ';' c).filter (fun s => !str_is_empty s)) ∧
      (attr "Categories" = none → app.categories = [])) := by
  by_cases h1 : (attr "NoDisplay").getD "false" = "true"
  · constructor
    · simp only [parse_desktop_file, h1]
      simp [h1]
    · intro app happ
      simp only [parse_desktop_file] at happ
      rw [if_pos (by simp [h1])] at happ
      cases happ
  · by_cases h2 : (attr "Hidden").getD "false" = "true"
    · constructor
      · simp only [parse_desktop_file]
        rw [if_pos (by simp [h2])]
        simp [h2]
      · intro app happ
        simp only [parse_desktop_file] at happ
        rw [if_pos (by simp [h2])] at happ
        cases happ
    · have hcond : ¬ (((attr "NoDisplay").getD "false" = "true") ∨
          ((attr "Hidden").getD "false" = "true")) := by
        simp [h1, h2]
      cases hname : attr "Name" with
      | none =>
        constructor
        · simp only [parse_desktop_file, hname]
          rw [if_neg (by simp [h1, h2])]
          simp [h1, h2]
        · intro app happ
          simp only [parse_desktop_file, hname] at happ
          rw [if_neg (by simp [h1, h2])] at happ
          cases happ
      | some name =>
        cases hexec : attr "Exec" with
        | none =>
          constructor
          · simp only [parse_desktop_file, hname, hexec]
            rw [if_neg (by simp [h1, h2])]
            simp [h1, h2]
          · intro app happ
            simp only [parse_desktop_file, hname, hexec] at happ
            rw [if_neg (by simp [h1, h2])] at happ
            cases happ
        | some e0 =>
          constructor
          · simp only [parse_desktop_file, hname, hexec]
            rw [if_neg (by simp [h1, h2])]
            simp [h1, h2]
          · intro app happ
            simp only [parse_desktop_file, hname, hexec] at happ
            rw [if_neg (by simp [h1, h2])] at happ
            injection happ with happ
            subst happ
            refine ⟨fun e t he ht => ?_, fun c hc => ?_, fun hc => ?_⟩
            · injection he with hee
              subst hee
              simp [ht]
            · simp [hc]
            · simp [hc]

/-- Witness for C8 on the spec's end-to-end fixture
(`Name=Editor`, `Exec=editor --flag %F`, `Categories=Development;Utility;`):
the produced entry has exec `"editor"` and categories
`["Development", "Utility"]`. -/
theorem c8_parse_rules_witness :
    parse_desktop_file (fun _ => false) none attr_fixture (some "editor") =
      some { id := "editor", name := "Editor", exec := "editor", icon := none,
             categories := ["Development", "Utility"], description := none } ∧
    ({ id := "editor", name := "Editor", exec := "editor", icon := none,
       categories := ["Development", "Utility"], description := none } :
        DesktopApp).exec = "editor" ∧
    ({ id := "editor", name := "Editor", exec := "editor", icon := none,
       categories := ["Development", "Utility"], description := none } :
        DesktopApp).categories = ["Development", "Utility"] := by
  have happ : parse_desktop_file (fun _ => false) none attr_fixture (some "editor") =
      some { id := "editor", name := "Editor", exec := "editor", icon := none,
             categories := ["Development", "Utility"], description := none } := by decide
  refine ⟨happ, ?_, ?_⟩
  · have h := ((c8_parse_rules (fun _ => false) none attr_fixture (some "editor")).2
      _ happ).1 "editor --flag %F" "editor" rfl (by decide)
    exact h
  · have h := ((c8_parse_rules (fun _ => false) none attr_fixture (some "editor")).2
      _ happ).2.1 "Development;Utility;" rfl
    rw [h]
    decide

/-! ## Audio-info defaults claim -/

/-- C10: `get_audio_info` is total (never an error): with the `pactl`
volume query failed and the `wpctl` query failed or unparseable, the
result has volume 50 and `is_muted = false`; with `pactl` succeeding but
no percentage parseable from its output, the volume defaults to 50. -/
theorem c10_audio_defaults :
    (∀ (pm : Option String) (meta : Option String × Option String × Bool),
      (get_audio_info none pm none meta).volume = 50 ∧
      (get_audio_info none pm none meta).is_muted = false) ∧
    (∀ (pm : Option String) (w : String) (meta : Option String × Option String × Bool),
      parse_wpctl_volume w = none →
      (get_audio_info none pm (some w) meta).volume = 50 ∧
      (get_audio_info none pm (some w) meta).is_muted = false) ∧
    (∀ (out : String) (pm wv : Option String)
        (meta : Option String × Option String × Bool),
      parse_first_percent_value out = none →
      (get_audio_info (some out) pm wv meta).volume = 50) := by
  refine ⟨fun pm meta => ?_, fun pm w meta hw => ?_, fun out pm wv meta hout => ?_⟩
  · simp [get_audio_info]
  · simp [get_audio_info, hw]
  · simp [get_audio_info, hout]

/-- Witness for C10: `wpctl` output with no colon is unparseable, and
`pactl` output with no percent value falls back to 50. -/
theorem c10_audio_defaults_witness :
    parse_wpctl_volume "garbage without separator" = none ∧
    (get_audio_info none none (some "garbage without separator") (none, none, false)).volume
      = 50 ∧
    parse_first_percent_value "Volume muted" = none ∧
    (get_audio_info (some "Volume muted") none none (none, none, false)).volume = 50 := by
  refine ⟨by decide, ?_, by decide, ?_⟩
  · exact (c10_audio_defaults.2.1 none "garbage without separator"
      (none, none, false) (by decide)).1
  · exact c10_audio_defaults.2.2 "Volume muted" none none (none, none, false) (by decide)

/-! ## Telemetry-cache freshness claim -/

theorem cached_fetch_fresh {α : Type} (ttl : Nat) (httl : 0 < ttl)
    (cache : Option (Nat × α)) (now : Nat) (fresh : α) :
    now - (cached_fetch ttl cache now fresh).1.1 < ttl := by
  unfold cached_fetch
  cases cache with
  | none =>
    by_cases h : now - now < ttl
    · simp [h]; omega
    · simp [h]; omega
  | some ci =>
    obtain ⟨t, i⟩ := ci
    by_cases h : now - t < ttl
    · simp [h]
    · simp [h]; omega

theorem cached_fetch_expired {α : Type} (ttl : Nat) (cache : Option (Nat × α))
    (now : Nat) (fresh : α) (t : Nat) (i : α) (hc : cache = some (t, i))
    (hexp : ¬ (now - t < ttl)) :
    cached_fetch ttl cache now fresh = ((now, fresh), (now, fresh)) := by
  subst hc
  simp [cached_fetch, hexp]

/-- C2: a snapshot returned by `get_system_info` / `get_network_info` has
computation age strictly below the domain TTL (1000 ms system, 3000 ms
network) at the moment of the freshness check, and an expired cached
snapshot is recomputed and stored synchronously before being returned. -/
theorem c2_cache_freshness :
    (∀ (cache : Option (Nat × SystemInfoM)) (now : Nat) (fresh : SystemInfoM),
      now - (get_system_info cache now fresh).1.1 < SYSTEM_CACHE_DURATION ∧
      (∀ t i, cache = some (t, i) → ¬ (now - t < SYSTEM_CACHE_DURATION) →
        get_system_info cache now fresh = ((now, fresh), (now, fresh)))) ∧
    (∀ (cache : Option (Nat × NetworkInfoM)) (now : Nat) (nmcli hostname : Option String),
      now - (get_network_info cache now nmcli hostname).1.1 < NETWORK_CACHE_DURATION ∧
      (∀ t i, cache = some (t, i) → ¬ (now - t < NETWORK_CACHE_DURATION) →
        get_network_info cache now nmcli hostname =
          ((now, compute_network_info nmcli hostname),
            (now, compute_network_info nmcli hostname)))) := by
  constructor
  · intro cache now fresh
    exact ⟨cached_fetch_fresh SYSTEM_CACHE_DURATION (by decide) cache now fresh,
      fun t i hc hexp => cached_fetch_expired SYSTEM_CACHE_DURATION cache now fresh
        t i hc hexp⟩
  · intro cache now nmcli hostname
    exact ⟨cached_fetch_fresh NETWORK_CACHE_DURATION (by decide) cache now _,
      fun t i hc hexp => cached_fetch_expired NETWORK_CACHE_DURATION cache now _
        t i hc hexp⟩

/-- Witness for C2: a snapshot cached at time 0 is expired at time 5000
and gets recomputed and stored with the fresh timestamp. -/
theorem c2_cache_freshness_witness :
    ¬ ((5000 : Nat) - 0 < SYSTEM_CACHE_DURATION) ∧
    get_system_info (some (0, sysA)) 5000 sysB = ((5000, sysB), (5000, sysB)) ∧
    (5000 : Nat) - (get_system_info (some (0, sysA)) 5000 sysB).1.1 <
      SYSTEM_CACHE_DURATION := by
  refine ⟨by decide, ?_, ?_⟩
  · exact ((c2_cache_freshness.1 (some (0, sysA)) 5000 sysB).2 0 sysA rfl (by decide))
  · exact (c2_cache_freshness.1 (some (0, sysA)) 5000 sysB).1

/-! ## Concurrency claim -/

theorem cache_inv_init {ι : Type} (t0 : Nat) (i0 : SystemInfoM) (tN : Nat)
    (iN : SystemInfoM) :
    CacheInv t0 i0 tN iN (cache_init (ι := ι) t0 i0) := by
  refine ⟨?_, ?_, ?_, ?_, ?_⟩
  · intro h
    rcases h with h | h | h <;> simp [cache_init] at h
  · intro _
    rfl
  · intro h
    simp [cache_init] at h
  · intro h
    rcases h with h | h <;> simp [cache_init] at h
  · intro i v h
    rcases h with h | h <;> simp [cache_init] at h

theorem cache_inv_step {ι : Type} [DecidableEq ι] {t0 tN : Nat} {i0 iN : SystemInfoM}
    {s s' : CacheSt ι} (hs : CacheStep tN iN s s') (hInv : CacheInv t0 i0 tN iN s) :
    CacheInv t0 i0 tN iN s' := by
  obtain ⟨hwl, h01, h2, h34, hr⟩ := hInv
  cases hs with
  | w_acquire hfree hw0 =>
    refine ⟨fun _ => rfl, fun _ => h01 (Or.inl hw0), ?_, ?_, hr⟩
    · intro h
      simp at h
    · intro h
      rcases h with h | h <;> simp at h
  | w_write_ts hlock hw1 =>
    refine ⟨fun _ => hlock, ?_, ?_, ?_, hr⟩
    · intro h
      rcases h with h | h <;> simp at h
    · intro _
      rw [h01 (Or.inr hw1)]
    · intro h
      rcases h with h | h <;> simp at h
  | w_write_info hlock hw2 =>
    refine ⟨fun _ => hlock, ?_, ?_, ?_, hr⟩
    · intro h
      rcases h with h | h <;> simp at h
    · intro h
      simp at h
    · intro _
      rw [h2 hw2]
  | w_release hlock hw3 =>
    refine ⟨?_, ?_, ?_, fun _ => h34 (Or.inl hw3), hr⟩
    · intro h
      rcases h with h | h | h <;> simp at h
    · intro h
      rcases h with h | h <;> simp at h
    · intro h
      simp at h
  | r_acquire i hfree hidle =>
    refine ⟨?_, h01, h2, h34, ?_⟩
    · intro h
      have hwr := hwl h
      rw [hfree] at hwr
      simp at hwr
    · intro i' v h
      by_cases hii : i' = i
      · subst hii
        simp only [updR, if_pos rfl] at h
        rcases h with h | h <;> simp at h
      · simp only [updR, if_neg hii] at h
        exact hr i' v h
  | r_read i hlock hlocked =>
    refine ⟨fun h => hwl h, h01, h2, h34, ?_⟩
    · intro i' v h
      by_cases hii : i' = i
      · subst hii
        simp only [updR, if_pos rfl] at h
        rcases h with h | h
        · have hv : s.slot = v := by injection h
          cases hw : s.w with
          | w0 =>
            refine Or.inl ?_
            rw [← hv]
            exact h01 (Or.inl hw)
          | w1 =>
            have := hwl (Or.inl hw)
            rw [hlock] at this
            simp at this
          | w2 =>
            have := hwl (Or.inr (Or.inl hw))
            rw [hlock] at this
            simp at this
          | w3 =>
            have := hwl (Or.inr (Or.inr hw))
            rw [hlock] at this
            simp at this
          | w4 =>
            refine Or.inr ?_
            rw [← hv]
            exact h34 (Or.inr hw)
        · simp at h
      · simp only [updR, if_neg hii] at h
        exact hr i' v h
  | r_release i v hlock hgot =>
    refine ⟨?_, h01, h2, h34, ?_⟩
    · intro h
      have hwr := hwl h
      rw [hlock] at hwr
      simp at hwr
    · intro i' v' h
      by_cases hii : i' = i
      · subst hii
        simp only [updR, if_pos rfl] at h
        rcases h with h | h
        · simp at h
        · have hv : v = v' := by injection h
          rw [← hv]
          exact hr _ v (Or.inl hgot)
      · simp only [updR, if_neg hii] at h
        exact hr i' v' h

theorem cache_reach_inv {ι : Type} [DecidableEq ι] (t0 : Nat) (i0 : SystemInfoM)
    (tN : Nat) (iN : SystemInfoM) (s : CacheSt ι) (h : CacheReach t0 i0 tN iN s) :
    CacheInv t0 i0 tN iN s := by
  induction h with
  | refl => exact cache_inv_init t0 i0 tN iN
  | tail _ hstep ih => exact cache_inv_step hstep ih

/-- C9: in the cache-refresh protocol of `get_system_info` /
`get_network_info` — the replacement record is built before the slot is
overwritten, and the slot is read and written only under the exclusive
lock — every reader that has completed its read observed either the
complete pre-refresh record `(t0, i0)` or the complete post-refresh
record `(tN, iN)`, never a record mixing fields of both. -/
theorem c9_reader_consistency {ι : Type} [DecidableEq ι] (t0 : Nat) (i0 : SystemInfoM)
    (tN : Nat) (iN : SystemInfoM) (s : CacheSt ι) (h : CacheReach t0 i0 tN iN s) :
    ∀ (i : ι) (v : Nat × SystemInfoM), s.r i = .done v →
      v = (t0, i0) ∨ v = (tN, iN) :=
  fun i v hv => (cache_reach_inv t0 i0 tN iN s h).2.2.2.2 i v (Or.inr hv)

/-- Witness for C9: a concrete three-step run in which one reader
acquires, reads and releases; its observation is the pre-refresh record. -/
theorem c9_reader_consistency_witness :
    c9_s3.r () = .done (0, sysA) ∧
    ((0, sysA) = ((0 : Nat), sysA) ∨ (0, sysA) = ((1 : Nat), sysB)) := by
  have st1 : CacheStep 1 sysB (cache_init 0 sysA) c9_s1 :=
    CacheStep.r_acquire (cache_init 0 sysA) () rfl rfl
  have st2 : CacheStep 1 sysB c9_s1 c9_s2 :=
    CacheStep.r_read c9_s1 () rfl rfl
  have st3 : CacheStep 1 sysB c9_s2 c9_s3 :=
    CacheStep.r_release c9_s2 () (0, sysA) rfl rfl
  have hreach : CacheReach 0 sysA 1 sysB c9_s3 :=
    Relation.ReflTransGen.tail
      (Relation.ReflTransGen.tail
        (Relation.ReflTransGen.tail Relation.ReflTransGen.refl st1) st2) st3
  exact ⟨rfl, c9_reader_consistency 0 sysA 1 sysB c9_s3 hreach () (0, sysA) rfl⟩

end SisCrystal
